import Mathlib

/-!
Shallow embedding of `src/cxa_pnacl_sjlj_exception.cpp` (PNaCl SJLJ-based
C++ exception handling) and proofs about it.

Modelling conventions:
* `TypeDesc` models `const __shim_type_info *` type descriptors (opaque).
* `Ptr` models `void *` values as integers.
* The type-descriptor comparator `can_catch` is an external collaborator;
  it is a parameter `Comparator : TypeDesc → TypeDesc → Ptr → Bool × Ptr`
  returning the verdict and the (possibly adjusted) pointer, since the C
  signature `can_catch(thrown_type, void *&adjustedPtr)` may adjust the
  pointer in place.
* Fallible steps (out-of-bounds static-table reads, dereferencing a null
  type-table entry inside the filter loop, walking past the end of the
  filter table without a sentinel, running out of fuel on the clause-list
  walk, reading the jmp_buf while the union holds a landing_pad_result)
  yield `none`: the C code has no defined result there.
* Each function additionally returns the number of comparator invocations
  it performed, so that cost claims about the unwind can be stated.
* C locals whose address is taken (`void *obj` in `handle_exception` and in
  `is_exception_caught`) have their addresses passed explicitly as `Ptr`
  parameters, because `does_clause_match` forwards the `void **obj`
  parameter itself (implicitly converted to `void *`) into
  `exception_spec_can_catch`, making the address observable.
-/

set_option autoImplicit false

namespace PnaclSjlj

/-- Opaque type descriptor (`const __shim_type_info *`). -/
abbrev TypeDesc := Nat

/-- Pointer values (`void *`). -/
abbrev Ptr := Int

/-- The external type-descriptor comparator: `canCatch catchType throwType p`
returns the match verdict together with the possibly adjusted pointer
(the C `can_catch(thrown_type, void *&adjustedPtr)` may write through the
reference). -/
abbrev Comparator := TypeDesc → TypeDesc → Ptr → Bool × Ptr

/-- One entry of `__pnacl_eh_action_table` (written by ExceptionInfoWriter). -/
structure action_table_entry where
  clause_id : Int
  next_clause_list_id : Nat
  deriving DecidableEq, Repr

/-- The three static tables: `__pnacl_eh_action_table`,
`__pnacl_eh_type_table` (nullable entries) and `__pnacl_eh_filter_table`. -/
structure Tables where
  action_table : List action_table_entry
  type_table : List (Option TypeDesc)
  filter_table : List Int
  deriving DecidableEq, Repr

/-- Read a list element at a possibly negative (C `int32_t`) index;
a negative or out-of-range index is an out-of-bounds table read. -/
def listGetInt {α : Type} (l : List α) (i : Int) : Option α :=
  if i < 0 then none else l[i.toNat]?

/-- The phase-tagged payload of an `exception_frame`: the C union of the
`jmp_buf` and the `landing_pad_result`; only one interpretation is valid at
a time. The `jmp_buf` content is modelled as an opaque token. -/
inductive FramePayload where
  | jmpbuf (token : Nat)
  | result (exception_obj : Ptr) (matched_clause_id : Int)
  deriving DecidableEq, Repr

/-- One `struct exception_frame`.  The `next` link is modelled by list
structure: a stack `frame :: rest` has `frame->next` pointing at `rest`. -/
structure exception_frame where
  payload : FramePayload
  clause_list_id : Nat
  deriving DecidableEq, Repr

/-- The fields of `__cxa_exception` consumed by this file. -/
structure cxa_exception where
  exceptionType : TypeDesc
  adjustedPtr : Ptr
  handlerSwitchValue : Int
  unexpectedHandler : Nat
  terminateHandler : Nat
  deriving DecidableEq, Repr

/-- An `_Unwind_Exception` header together with the `__cxa_exception` part
reachable via `get_exception_header_from_ue`.  `isDependent` captures
`exception_class == kOurDependentExceptionClass` (the constant itself lives
in `cxa_exception.hpp`, outside this file); `payload_addr` models the value
of `(void *) (ue_header + 1)`; `addr` is the value of the `ue_header`
pointer itself (stored into `frame->result.exception_obj`). -/
structure ue_rec where
  isDependent : Bool
  primaryException : Ptr
  payload_addr : Ptr
  addr : Ptr
  header : cxa_exception
  deriving DecidableEq, Repr

/-- Model of `get_object_from_ue`: the thrown object pointer of a primary or
dependent exception. -/
def get_object_from_ue (ue : ue_rec) : Ptr :=
  if ue.isDependent then ue.primaryException else ue.payload_addr

/-- The loop of `exception_spec_can_catch`, running over the suffix of
`__pnacl_eh_filter_table` that starts at the filter list's first entry.
Walking past the end of the table without hitting the `0` sentinel, an
out-of-range filter entry, and a null type-table entry (the C code calls
`catch_type->can_catch` without a null check) are all undefined (`none`).
A failed `can_catch` call may still have adjusted the local `obj`, and the
adjusted value is passed to the next iteration. -/
def spec_catch_loop (cmp : Comparator) (tbl : Tables) (ty : TypeDesc) :
    Ptr → List Int → Option Bool × Nat
  | _, [] => (none, 0)
  | obj, f :: rest =>
    if f = 0 then (some true, 0)
    else
      match listGetInt tbl.type_table (f - 1) with
      | none => (none, 0)
      | some none => (none, 0)
      | some (some catch_type) =>
        let r := cmp catch_type ty obj
        if r.1 then (some false, 1)
        else
          let s := spec_catch_loop cmp tbl ty r.2 rest
          (s.1, 1 + s.2)

/-- Model of `exception_spec_can_catch(throw_type, obj, filter_id)`: whether the
thrown exception matches none of the types of the exception specification
`filter_id` (true = specification violated). -/
def exception_spec_can_catch (cmp : Comparator) (tbl : Tables) (ty : TypeDesc)
    (obj : Ptr) (filter_id : Int) : Option Bool × Nat :=
  if -filter_id - 1 < 0 then (none, 0)
  else spec_catch_loop cmp tbl ty obj (tbl.filter_table.drop (-filter_id - 1).toNat)

/-- Model of `does_clause_match(throw_type, obj, clause_id)`.  Here `a` is the value of
the `void **obj` argument itself, i.e. the address of the caller's
object-pointer variable: the C filter branch passes `obj` (not `*obj`) to
`exception_spec_can_catch`, the `void **` argument being implicitly
converted to `void *`.  `obj` is the current value of `*obj`.  Returns the
verdict together with the new value of `*obj`. -/
def does_clause_match (cmp : Comparator) (tbl : Tables) (a : Ptr)
    (ty : TypeDesc) (obj : Ptr) (clause_id : Int) : Option (Bool × Ptr) × Nat :=
  if clause_id = 0 then (some (true, obj), 0)
  else if clause_id < 0 then
    let r := exception_spec_can_catch cmp tbl ty a clause_id
    match r.1 with
    | none => (none, r.2)
    | some b => (some (b, obj), r.2)
  else
    match listGetInt tbl.type_table (clause_id - 1) with
    | none => (none, 0)
    | some none => (some (true, obj), 0)
    | some (some catch_type) =>
      let r := cmp catch_type ty obj
      (some (r.1, r.2), 1)

/-- The loop of `does_frame_match`, walking the clause list by following
`next_clause_list_id` links.  `fuel` bounds the number of links followed
(the C loop does not terminate on a cyclic list; running out of fuel is
`none`).  Returns `(some clause_id, newObj)` on the first matching clause,
`(none, newObj)` when the list ends with no match. -/
def does_frame_match_loop (cmp : Comparator) (tbl : Tables) (a : Ptr)
    (ty : TypeDesc) : Nat → Ptr → Nat → Option (Option Int × Ptr) × Nat
  | 0, obj, clause_list_id =>
    if clause_list_id = 0 then (some (none, obj), 0) else (none, 0)
  | fuel + 1, obj, clause_list_id =>
    if clause_list_id = 0 then (some (none, obj), 0)
    else
      match tbl.action_table[clause_list_id - 1]? with
      | none => (none, 0)
      | some list_node =>
        match does_clause_match cmp tbl a ty obj list_node.clause_id with
        | (none, n) => (none, n)
        | (some (true, obj'), n) => (some (some list_node.clause_id, obj'), n)
        | (some (false, obj'), n) =>
          let r := does_frame_match_loop cmp tbl a ty fuel obj'
            list_node.next_clause_list_id
          (r.1, n + r.2)

/-- Model of `does_frame_match(throw_type, obj, frame, result_clause_id)`: whether
the given frame should be entered to handle the thrown exception. -/
def does_frame_match (cmp : Comparator) (tbl : Tables) (fuel : Nat) (a : Ptr)
    (ty : TypeDesc) (obj : Ptr) (frame : exception_frame) :
    Option (Option Int × Ptr) × Nat :=
  does_frame_match_loop cmp tbl a ty fuel obj frame.clause_list_id

/-- Model of `find_match(throw_type, obj, frame, result_frame, result_clause_id)`:
search outward from the given frame for a frame handling the exception.
On success returns the matched frame as the suffix of the stack it heads
(so its tail is `frame->next`) together with the matched clause id and the
final (adjusted) object pointer; `(none, obj)` when the stack is
exhausted. -/
def find_match (cmp : Comparator) (tbl : Tables) (fuel : Nat) (a : Ptr)
    (ty : TypeDesc) :
    Ptr → List exception_frame →
    Option (Option (List exception_frame × Int) × Ptr) × Nat
  | obj, [] => (some (none, obj), 0)
  | obj, frame :: rest =>
    match does_frame_match cmp tbl fuel a ty obj frame with
    | (none, n) => (none, n)
    | (some (some c, obj'), n) => (some (some (frame :: rest, c), obj'), n)
    | (some (none, obj'), n) =>
      let r := find_match cmp tbl fuel a ty obj' rest
      (r.1, n + r.2)

/-- Model of `is_exception_caught(throw_type, obj, frame)`: search for a non-cleanup
frame handling the exception.  `a` is the address of this function's own
local `obj` variable (it passes `&obj` down); the `obj` parameter is
by-value, so adjustments thread through the walk but are invisible to the
caller. -/
def is_exception_caught (cmp : Comparator) (tbl : Tables) (fuel : Nat)
    (a : Ptr) (ty : TypeDesc) : Ptr → List exception_frame → Option Bool × Nat
  | _, [] => (some false, 0)
  | obj, frame :: rest =>
    match does_frame_match cmp tbl fuel a ty obj frame with
    | (none, n) => (none, n)
    | (some (some c, obj'), n) =>
      if c ≠ 0 then (some true, n)
      else
        let r := is_exception_caught cmp tbl fuel a ty obj' rest
        (r.1, n + r.2)
    | (some (none, obj'), n) =>
      let r := is_exception_caught cmp tbl fuel a ty obj' rest
      (r.1, n + r.2)

/-- Outcome of one `handle_exception` call.  `returned` carries the (unchanged)
Region Stack and exception header visible after the call; `jumped` carries
the new Region Stack (`frame->next`), the updated exception header, the
`jmp_buf` token copied before the overwrite, and the matched frame as the
landing pad reads it after the `longjmp` (its payload overwritten with the
`landing_pad_result`). -/
inductive HandleResult where
  | returned (stack : List exception_frame) (xh : cxa_exception)
  | jumped (stack : List exception_frame) (xh : cxa_exception)
      (token : Nat) (landing : exception_frame)
  | ub
  deriving DecidableEq, Repr

/-- Result of `handle_exception`, the number of comparator invocations made,
and whether the non-committing probe `is_exception_caught` was invoked. -/
structure HandleOut where
  res : HandleResult
  cmpCalls : Nat
  probeRan : Bool
  deriving DecidableEq, Repr

/-- The commit-and-transfer tail of `handle_exception` (everything from
`__pnacl_eh_stack = frame->next;` to the `longjmp`): pop to `frame->next`,
record the adjusted pointer and clause id in the exception header, copy the
`jmp_buf` out of the union (undefined if the union currently holds a
result), overwrite the union with the `landing_pad_result`
`(ue_header, clause_id)` and jump with the copied token. -/
def commit_frame (ue : ue_rec) (c : Int) (obj' : Ptr) (frame : exception_frame)
    (rest : List exception_frame) (cnt : Nat) (pr : Bool) : HandleOut :=
  match frame.payload with
  | .result _ _ => ⟨.ub, cnt, pr⟩
  | .jmpbuf tok =>
    ⟨.jumped rest
      { ue.header with adjustedPtr := obj', handlerSwitchValue := c } tok
      { frame with payload := .result ue.addr c }, cnt, pr⟩

/-- Model of `handle_exception(ue_header, check_for_catch)`.  Here `stack` is the current
value of `__pnacl_eh_stack`; `a1` is the address of this function's local
`obj` variable (passed as `&obj` to `find_match`), `a2` the address of
`is_exception_caught`'s local `obj`. -/
def handle_exception (cmp : Comparator) (tbl : Tables) (fuel : Nat)
    (a1 a2 : Ptr) (ue : ue_rec) (stack : List exception_frame)
    (check_for_catch : Bool) : HandleOut :=
  match find_match cmp tbl fuel a1 ue.header.exceptionType
      (get_object_from_ue ue) stack with
  | (none, n) => ⟨.ub, n, false⟩
  | (some (none, _), n) => ⟨.returned stack ue.header, n, false⟩
  | (some (some ([], _), _), n) => ⟨.ub, n, false⟩
  | (some (some (frame :: rest, c), obj'), n) =>
    if check_for_catch ∧ c = 0 then
      match is_exception_caught cmp tbl fuel a2 ue.header.exceptionType
          obj' rest with
      | (none, m) => ⟨.ub, n + m, true⟩
      | (some false, m) => ⟨.returned stack ue.header, n + m, true⟩
      | (some true, m) => commit_frame ue c obj' frame rest (n + m) true
    else commit_frame ue c obj' frame rest n false

/-- Value of `_URC_END_OF_STACK`, the reason code `__pnacl_eh_sjlj_Unwind_RaiseException`
returns when unwinding found no matching frame. -/
def URC_END_OF_STACK : Nat := 5

/-- Observable outcome of `__pnacl_eh_sjlj_Unwind_RaiseException`. -/
inductive RaiseResult where
  | unhandled (code : Nat) (stack : List exception_frame) (xh : cxa_exception)
  | transferred (stack : List exception_frame) (xh : cxa_exception)
      (token : Nat) (landing : exception_frame)
  | ub
  deriving DecidableEq, Repr

/-- Model of `__pnacl_eh_sjlj_Unwind_RaiseException(ue_header)`: calls
`handle_exception(ue_header, true)` and, if that returns, returns
`_URC_END_OF_STACK`. -/
def Unwind_RaiseException (cmp : Comparator) (tbl : Tables) (fuel : Nat)
    (a1 a2 : Ptr) (ue : ue_rec) (stack : List exception_frame) :
    RaiseResult × Nat × Bool :=
  match handle_exception cmp tbl fuel a1 a2 ue stack true with
  | ⟨.returned s x, n, pr⟩ => (.unhandled URC_END_OF_STACK s x, n, pr)
  | ⟨.jumped s x t l, n, pr⟩ => (.transferred s x t l, n, pr)
  | ⟨.ub, n, pr⟩ => (.ub, n, pr)

/-- Observable outcome of `__pnacl_eh_resume`. -/
inductive ResumeResult where
  | transferred (stack : List exception_frame) (xh : cxa_exception)
      (token : Nat) (landing : exception_frame)
  | terminated
  | ub
  deriving DecidableEq, Repr

/-- Model of `__pnacl_eh_resume(ue_header)`: calls
`handle_exception(ue_header, false)`; if that returns, the exception is
marked caught and `std::terminate()` is called. -/
def pnacl_eh_resume (cmp : Comparator) (tbl : Tables) (fuel : Nat)
    (a1 a2 : Ptr) (ue : ue_rec) (stack : List exception_frame) :
    ResumeResult × Nat × Bool :=
  match handle_exception cmp tbl fuel a1 a2 ue stack false with
  | ⟨.jumped s x t l, n, pr⟩ => (.transferred s x t l, n, pr)
  | ⟨.returned _ _, n, pr⟩ => (.terminated, n, pr)
  | ⟨.ub, n, pr⟩ => (.ub, n, pr)

/-- Model of `__pnacl_eh_sjlj_Unwind_Resume_or_Rethrow(ue_header)`: simply calls
`__pnacl_eh_sjlj_Unwind_RaiseException(ue_header)`. -/
def Unwind_Resume_or_Rethrow (cmp : Comparator) (tbl : Tables) (fuel : Nat)
    (a1 a2 : Ptr) (ue : ue_rec) (stack : List exception_frame) :
    RaiseResult × Nat × Bool :=
  Unwind_RaiseException cmp tbl fuel a1 a2 ue stack

/-- What the `std::set_unexpected()` handler invoked by
`__pnacl_eh_sjlj_cxa_call_unexpected` does: either it raises a new fault
(caught by the `catch (...)`), or `std::__unexpected` terminates without
returning (a returning handler is turned into termination inside
`std::__unexpected`). -/
inductive HookOutcome where
  | throws (newType : TypeDesc) (newObj : Ptr)
  | noThrow
  deriving DecidableEq, Repr

/-- The non-returning ways out of `__pnacl_eh_sjlj_cxa_call_unexpected`:
rethrow the handler's new fault (`throw;`), substitute and throw a
`std::bad_exception`, or `std::__terminate(t_handler)`.  There is no
normal-return constructor: the function never returns. -/
inductive CallUnexpectedResult where
  | rethrow_new
  | throw_bad_exception
  | terminate
  | ub
  deriving DecidableEq, Repr

/-- Model of `__pnacl_eh_sjlj_cxa_call_unexpected(ue_header)`: reads the retained
filter id (`handlerSwitchValue`) from the original exception header, runs
the unexpected handler, and if it threw a new fault re-checks it, then
`std::bad_exception`, against that original filter id, in that order.
`be_addr` is the address of the local `std::bad_exception be`; `be_ty` its
type descriptor (`typeid(be)`). -/
def cxa_call_unexpected (cmp : Comparator) (tbl : Tables) (ue : ue_rec)
    (hook : HookOutcome) (be_addr : Ptr) (be_ty : TypeDesc) :
    CallUnexpectedResult × Nat :=
  let filter_id := ue.header.handlerSwitchValue
  match hook with
  | .noThrow => (.terminate, 0)
  | .throws newType newObj =>
    let r1 := exception_spec_can_catch cmp tbl newType newObj filter_id
    match r1.1 with
    | none => (.ub, r1.2)
    | some false => (.rethrow_new, r1.2)
    | some true =>
      let r2 := exception_spec_can_catch cmp tbl be_ty be_addr filter_id
      match r2.1 with
      | none => (.ub, r1.2 + r2.2)
      | some false => (.throw_bad_exception, r1.2 + r2.2)
      | some true => (.terminate, r1.2 + r2.2)

/-! ### A full unwind, driven the way the generated code drives it

A raised exception first enters `__pnacl_eh_sjlj_Unwind_RaiseException`;
whenever the transfer lands on a cleanup clause (`matched_clause_id == 0`),
the landing pad runs its destructors and calls `__pnacl_eh_resume`, which
continues the search without the probe.  `unwind_steps` iterates this until
a non-cleanup landing pad (or no transfer) and adds up the comparator
invocations; the step count is bounded by the stack length since every
transfer pops at least one frame. -/

/-- Total comparator invocations of a full unwind, starting with a raise
and following each cleanup transfer with a resume. -/
def unwind_steps (cmp : Comparator) (tbl : Tables) (fuel : Nat) (a1 a2 : Ptr)
    (ue : ue_rec) : Nat → List exception_frame → Bool → Nat
  | 0, _, _ => 0
  | steps + 1, stack, first =>
    match handle_exception cmp tbl fuel a1 a2 ue stack first with
    | ⟨.jumped stk' xh' _ _, n, _⟩ =>
      if xh'.handlerSwitchValue = 0 then
        n + unwind_steps cmp tbl fuel a1 a2 ue steps stk' false
      else n
    | ⟨_, n, _⟩ => n

/-- Running `unwind_steps` with enough steps for the whole stack. -/
def unwind_total (cmp : Comparator) (tbl : Tables) (fuel : Nat) (a1 a2 : Ptr)
    (ue : ue_rec) (stack : List exception_frame) : Nat :=
  unwind_steps cmp tbl fuel a1 a2 ue (stack.length + 1) stack true

/-! ### Concrete instances used by witnesses and counterexamples -/

/-- Comparator that matches exactly declared type `200`, never adjusting. -/
def cmp6 : Comparator := fun catchTy _ p => (decide (catchTy = 200), p)

/-- Tables for the cleanup-over-handler family: clause list `1` is
`[catch 1 (type 100), cleanup]`, clause list `3` is `[catch 2 (type 200)]`. -/
def tbl6 : Tables := ⟨[⟨1, 2⟩, ⟨0, 0⟩, ⟨2, 0⟩], [some 100, some 200], []⟩

/-- A frame whose clause list is a failing typed catch followed by cleanup. -/
def cleanupFrame : exception_frame := ⟨.jmpbuf 11, 1⟩

/-- A frame whose clause list is a single matching typed catch. -/
def catchFrame : exception_frame := ⟨.jmpbuf 77, 3⟩

/-- A primary exception of thrown type `50`, object pointer `555`, header
address `900`. -/
def ue6 : ue_rec := ⟨false, 0, 555, 900, ⟨50, 0, 0, 1, 2⟩⟩

/-- Stack of `n` cleanup-only frames stacked on one real handler frame. -/
def fam (n : Nat) : List exception_frame :=
  List.replicate n cleanupFrame ++ [catchFrame]

/-- Comparator whose verdict depends on the pointer value it is given:
it catches exactly the pointer `42`. -/
def cmp7 : Comparator := fun _ _ p => (decide (p = 42), p)

/-- Tables with one filter list `[1, 0]` naming type-table entry `1`. -/
def tbl7 : Tables := ⟨[], [some 10], [1, 0]⟩

/-- Comparator that reports no match but still adjusts the pointer. -/
def cmp8 : Comparator := fun _ _ p => (false, p + 1)

/-- Tables with a single non-null type-table entry. -/
def tbl8 : Tables := ⟨[], [some 10], []⟩

/-- Comparator that always matches without adjusting. -/
def cmpO : Comparator := fun _ _ p => (true, p)

/-- Clause list order A: catch-all (null entry `1`) then typed catch `2`. -/
def tblO1 : Tables := ⟨[⟨1, 2⟩, ⟨2, 0⟩], [none, some 10], []⟩

/-- Clause list order B: the same two clauses, typed catch `2` first. -/
def tblO2 : Tables := ⟨[⟨2, 2⟩, ⟨1, 0⟩], [none, some 10], []⟩

/-- A frame entering its clause list at node `1`. -/
def frO : exception_frame := ⟨.jmpbuf 0, 1⟩

/-- Comparator implementing exact type equality, never adjusting. -/
def cmpF : Comparator := fun ct t p => (decide (ct = t), p)

/-- Tables whose filter list `-1` lists exactly type-table entry `1`
(descriptor `1`). -/
def tblF : Tables := ⟨[], [some 1], [1, 0]⟩

/-- An exception whose retained `handlerSwitchValue` is the filter clause
`-1`. -/
def ue9 : ue_rec := ⟨false, 0, 300, 400, ⟨2, 0, -1, 1, 2⟩⟩

/-- Tables with a single cleanup-only clause list. -/
def tbl2 : Tables := ⟨[⟨0, 0⟩], [], []⟩

/-- A frame with a cleanup-only clause list. -/
def clOnly : exception_frame := ⟨.jmpbuf 5, 1⟩

/-- Comparator that never matches and never adjusts. -/
def cmp2 : Comparator := fun _ _ p => (false, p)

/-- A primary exception of thrown type `7`. -/
def ue2 : ue_rec := ⟨false, 0, 10, 20, ⟨7, 0, 0, 1, 2⟩⟩

/-! ### Helper lemmas -/

/-- Lemma: `commit_frame` hands its probe flag through unchanged. -/
theorem commit_frame_probeRan (ue : ue_rec) (c : Int) (obj' : Ptr)
    (frame : exception_frame) (rest : List exception_frame) (cnt : Nat)
    (pr : Bool) : (commit_frame ue c obj' frame rest cnt pr).probeRan = pr := by
  cases hp : frame.payload <;> simp [commit_frame, hp]

/-- Inversion of the commit-and-transfer tail: a `jumped` outcome pins down
every component in terms of the matched frame and clause. -/
theorem commit_frame_eq_jumped {ue : ue_rec} {c : Int} {obj' : Ptr}
    {frame : exception_frame} {rest stk' : List exception_frame} {cnt n : Nat}
    {pr pr' : Bool} {xh' : cxa_exception} {tok : Nat} {lf : exception_frame}
    (h : commit_frame ue c obj' frame rest cnt pr
      = ⟨.jumped stk' xh' tok lf, n, pr'⟩) :
    stk' = rest ∧ frame.payload = .jmpbuf tok ∧
    xh' = { ue.header with adjustedPtr := obj', handlerSwitchValue := c } ∧
    lf = { frame with payload := .result ue.addr c } ∧ n = cnt ∧ pr' = pr := by
  cases hp : frame.payload with
  | result e m => simp [commit_frame, hp] at h
  | jmpbuf t =>
    simp only [commit_frame, hp, HandleOut.mk.injEq, HandleResult.jumped.injEq]
      at h
    obtain ⟨⟨h1, h2, h3, h4⟩, h5, h6⟩ := h
    exact ⟨h1.symm, congrArg FramePayload.jmpbuf h3, h2.symm,
      h4.symm, h5.symm, h6.symm⟩

/-- A successful `find_match` returns a suffix of the stack it searched. -/
theorem find_match_suffix (cmp : Comparator) (tbl : Tables) (fuel : Nat)
    (a : Ptr) (ty : TypeDesc) :
    ∀ (stack : List exception_frame) (obj p : Ptr)
      (s : List exception_frame) (c : Int),
      (find_match cmp tbl fuel a ty obj stack).1 = some (some (s, c), p) →
      ∃ pre, stack = pre ++ s
  | [], obj, p, s, c => by simp [find_match]
  | frame :: rest, obj, p, s, c => by
    simp only [find_match]
    rcases hd : does_frame_match cmp tbl fuel a ty obj frame with ⟨r, n0⟩
    match r with
    | none => simp
    | some (some c', obj') =>
      intro h
      simp only [Option.some.injEq, Prod.mk.injEq] at h
      exact ⟨[], by simp [h.1.1]⟩
    | some (none, obj') =>
      intro h
      simp only at h
      obtain ⟨pre, hpre⟩ := find_match_suffix cmp tbl fuel a ty rest obj' p s c h
      exact ⟨frame :: pre, by simp [hpre]⟩

/-- With `check_for_catch = false`, `handle_exception` never invokes the
non-cleanup probe. -/
theorem handle_exception_no_probe (cmp : Comparator) (tbl : Tables)
    (fuel : Nat) (a1 a2 : Ptr) (ue : ue_rec) (stack : List exception_frame) :
    (handle_exception cmp tbl fuel a1 a2 ue stack false).probeRan = false := by
  unfold handle_exception
  rcases hf : find_match cmp tbl fuel a1 ue.header.exceptionType
      (get_object_from_ue ue) stack with ⟨r, n⟩
  match r with
  | none => simp
  | some (none, p) => simp
  | some (some ([], c), p) => simp
  | some (some (frame :: rest, c), p) =>
    simp only [false_and, if_false]
    exact commit_frame_probeRan ue c p frame rest n false

/-! ### Claim theorems -/

/-- C10: rethrow equals fresh raise.  The rethrow entry point
`__pnacl_eh_sjlj_Unwind_Resume_or_Rethrow` behaves exactly like
`__pnacl_eh_sjlj_Unwind_RaiseException` on every fault handle and Region
Stack, including the pre-commit non-cleanup probe and the no-handler
return value. -/
theorem C10_rethrow_equals_raise (cmp : Comparator) (tbl : Tables)
    (fuel : Nat) (a1 a2 : Ptr) (ue : ue_rec) (stack : List exception_frame) :
    Unwind_Resume_or_Rethrow cmp tbl fuel a1 a2 ue stack
      = Unwind_RaiseException cmp tbl fuel a1 a2 ue stack := rfl

/-- C7: at a filter clause the Clause Matcher does NOT evaluate the Filter
Evaluator at the thrown object pointer.  The C code passes `obj` — the
`void **` argument itself, implicitly converted to `void *` — to
`exception_spec_can_catch`, so the filter comparator sees the address of
the caller's object-pointer variable (here `7`) rather than the object
pointer (`42`).  With a comparator that catches exactly pointer `42`, the
clause matcher reports a match (specification violated at pointer `7`),
while the Filter Evaluator applied to the thrown object pointer `42`
reports no violation.  The caller's pointer is left unchanged either way. -/
theorem C7_filter_receives_slot_address :
    (does_clause_match cmp7 tbl7 7 99 42 (-1)).1 = some (true, 42) ∧
    (exception_spec_can_catch cmp7 tbl7 99 42 (-1)).1 = some false := by
  decide

/-- C8 counterexample: a comparator that reports no match but adjusts the
pointer in place leaves the caller's object pointer at the adjusted value
`6`, not the original `5` — the code passes `*obj` by reference to
`can_catch` and performs no save/restore around a failed call. -/
theorem C8_counterexample :
    (does_clause_match cmp8 tbl8 0 99 5 1).1 = some (false, 6) ∧
    (does_clause_match cmp8 tbl8 0 99 5 1).1 ≠ some (false, 5) := by
  decide

/-- C8 (amended): for a catch clause with a non-null type-table entry the
Clause Matcher returns the comparator's verdict and hands the comparator's
(possibly adjusted) pointer to the caller unconditionally — on match and on
no-match alike; the caller's pointer equals its original value on a
no-match exactly when the comparator itself left it unchanged. -/
theorem C8_adjustment_passthrough (cmp : Comparator) (tbl : Tables) (a : Ptr)
    (ty : TypeDesc) (obj : Ptr) (cid : Int) (ct : TypeDesc)
    (hpos : 0 < cid)
    (hlook : listGetInt tbl.type_table (cid - 1) = some (some ct)) :
    (does_clause_match cmp tbl a ty obj cid).1
      = some ((cmp ct ty obj).1, (cmp ct ty obj).2) ∧
    ((cmp ct ty obj).1 = false → (cmp ct ty obj).2 = obj →
      (does_clause_match cmp tbl a ty obj cid).1 = some (false, obj)) := by
  have h0 : ¬ cid = 0 := by omega
  have h1 : ¬ cid < 0 := by omega
  refine ⟨by simp [does_clause_match, h0, h1, hlook], ?_⟩
  intro hf hp
  simp [does_clause_match, h0, h1, hlook, hf, hp]

/-- Witness for C8 (amended): the comparator `cmp8` adjusts `5` to `6`
while reporting no match, and the clause matcher hands exactly that pair to
the caller. -/
theorem C8_adjustment_passthrough_witness :
    (does_clause_match cmp8 tbl8 0 99 5 1).1
      = some ((cmp8 10 99 5).1, (cmp8 10 99 5).2) :=
  (C8_adjustment_passthrough cmp8 tbl8 0 99 5 1 10 (by decide) (by decide)).1

/-- C4: first-match clause-list walk.  When the entry the frame's
`clause_list_id` points at matches, `does_frame_match` returns exactly that
entry's clause id (and its adjusted pointer), never a later one; when it
does not match, the walk continues at `next_clause_list_id` with the
threaded pointer; and the two concrete clause lists `tblO1`/`tblO2`, which
hold the same two clauses in opposite orders, yield different results. -/
theorem C4_first_match_walk (cmp : Comparator) (tbl : Tables) (fuel : Nat)
    (a : Ptr) (ty : TypeDesc) (obj : Ptr) (frame : exception_frame)
    (node : action_table_entry)
    (hne : frame.clause_list_id ≠ 0)
    (hlook : tbl.action_table[frame.clause_list_id - 1]? = some node) :
    (∀ p, (does_clause_match cmp tbl a ty obj node.clause_id).1
        = some (true, p) →
      (does_frame_match cmp tbl (fuel + 1) a ty obj frame).1
        = some (some node.clause_id, p)) ∧
    (∀ p, (does_clause_match cmp tbl a ty obj node.clause_id).1
        = some (false, p) →
      (does_frame_match cmp tbl (fuel + 1) a ty obj frame).1
        = (does_frame_match_loop cmp tbl a ty fuel p
            node.next_clause_list_id).1) ∧
    (does_frame_match cmpO tblO1 2 0 5 7 frO).1
      ≠ (does_frame_match cmpO tblO2 2 0 5 7 frO).1 := by
  refine ⟨?_, ?_, by decide⟩ <;>
  · intro p hp
    rcases hd : does_clause_match cmp tbl a ty obj node.clause_id with ⟨r, n⟩
    rw [hd] at hp
    simp only at hp
    subst hp
    simp [does_frame_match, does_frame_match_loop, hne, hlook, hd]

/-- Witness for C4: in clause-list order catch-all-first, the walk returns
the catch-all clause `1` even though the later typed clause `2` also
matches. -/
theorem C4_first_match_walk_witness :
    (does_frame_match cmpO tblO1 2 0 5 7 frO).1 = some (some 1, 7) :=
  (C4_first_match_walk cmpO tblO1 1 0 5 7 frO ⟨1, 2⟩ (by decide)
    (by decide)).1 7 (by decide)

/-- C5: Filter Evaluator semantics.  `exception_spec_can_catch` runs the
filter loop on the suffix of the filter table starting at index
`-filter_id - 1`; the loop returns false (not violated) as soon as a listed
type-table entry can catch the thrown value, walks on (with the threaded
pointer) past an entry that cannot, and returns true (violated) exactly
when it reaches the `0` sentinel with no listed type having caught it; on
the concrete filter list `{A}` it returns false for a thrown `A` and true
for a thrown `B`. -/
theorem C5_filter_evaluator (cmp : Comparator) (tbl : Tables) (ty : TypeDesc)
    (obj : Ptr) (fid : Int) (hfid : fid < 0) :
    exception_spec_can_catch cmp tbl ty obj fid
      = spec_catch_loop cmp tbl ty obj
          (tbl.filter_table.drop (-fid - 1).toNat) ∧
    (∀ l, spec_catch_loop cmp tbl ty obj (0 :: l) = (some true, 0)) ∧
    (∀ f l ct, f ≠ 0 → listGetInt tbl.type_table (f - 1) = some (some ct) →
      ((cmp ct ty obj).1 = true →
        spec_catch_loop cmp tbl ty obj (f :: l) = (some false, 1)) ∧
      ((cmp ct ty obj).1 = false →
        (spec_catch_loop cmp tbl ty obj (f :: l)).1
          = (spec_catch_loop cmp tbl ty (cmp ct ty obj).2 l).1)) ∧
    (exception_spec_can_catch cmpF tblF 1 0 (-1)).1 = some false ∧
    (exception_spec_can_catch cmpF tblF 2 0 (-1)).1 = some true := by
  have hge : ¬ (-fid - 1 < 0) := by omega
  refine ⟨by simp [exception_spec_can_catch, hge], ?_, ?_, by decide,
    by decide⟩
  · intro l
    simp [spec_catch_loop]
  · intro f l ct hf hlook
    constructor
    · intro hc
      simp [spec_catch_loop, hf, hlook, hc]
    · intro hc
      simp [spec_catch_loop, hf, hlook, hc]

/-- Witness for C5: the filter list `{A}` with thrown type `A` at filter id
`-1`. -/
theorem C5_filter_evaluator_witness :
    exception_spec_can_catch cmpF tblF 1 0 (-1)
      = spec_catch_loop cmpF tblF 1 0 (tblF.filter_table.drop
          (-(-1 : Int) - 1).toNat) :=
  (C5_filter_evaluator cmpF tblF 1 0 (-1) (by decide)).1

/-- C9: violation re-entry ordering.  When the unexpected handler raises a
new fault, `__pnacl_eh_sjlj_cxa_call_unexpected` re-checks it against the
original retained filter id in this order: propagate the new fault if the
filter allows it; otherwise throw `std::bad_exception` if the filter allows
that; otherwise terminate.  The result type has no normal-return
constructor: every outcome of the modelled function is non-returning. -/
theorem C9_violation_reentry_order (cmp : Comparator) (tbl : Tables)
    (ue : ue_rec) (nty : TypeDesc) (nobj be_addr : Ptr) (be_ty : TypeDesc)
    (v1 v2 : Bool)
    (h1 : (exception_spec_can_catch cmp tbl nty nobj
        ue.header.handlerSwitchValue).1 = some v1)
    (h2 : (exception_spec_can_catch cmp tbl be_ty be_addr
        ue.header.handlerSwitchValue).1 = some v2) :
    (cxa_call_unexpected cmp tbl ue (.throws nty nobj) be_addr be_ty).1
      = if v1 = false then .rethrow_new
        else if v2 = false then .throw_bad_exception
        else .terminate := by
  cases v1 <;> cases v2 <;> simp [cxa_call_unexpected, h1, h2]

/-- Witness for C9: with retained filter `-1` allowing only type `1`, a new
fault of type `2` is disallowed and `std::bad_exception` (type `1`) is
allowed, so the substituted `bad_exception` is thrown. -/
theorem C9_violation_reentry_order_witness :
    (cxa_call_unexpected cmpF tblF ue9 (.throws 2 0) 99 1).1
      = if (true = false) then .rethrow_new
        else if (false = false) then .throw_bad_exception
        else .terminate :=
  C9_violation_reentry_order cmpF tblF ue9 2 0 99 1 true false (by decide)
    (by decide)

/-- C1: commit-and-transfer postcondition.  Whenever `handle_exception`
commits (outcome `jumped`), the committed frame heads a suffix of the
entered Region Stack and the new stack top is exactly that frame's `next`
(so the matched frame and everything above it are popped and the outer
frames are untouched); the fault handle receives the adjusted object
pointer and the matched clause id; the transfer token equals the
checkpoint stored in the frame before its payload storage was overwritten
(the copy-before-overwrite); and the landing frame delivered to the
resumed code holds exactly the fault handle address and the matched clause
id. -/
theorem C1_commit_and_transfer (cmp : Comparator) (tbl : Tables) (fuel : Nat)
    (a1 a2 : Ptr) (ue : ue_rec) (stack : List exception_frame) (chk : Bool)
    (stk' : List exception_frame) (xh' : cxa_exception) (tok : Nat)
    (lf : exception_frame) (n : Nat) (pr : Bool)
    (h : handle_exception cmp tbl fuel a1 a2 ue stack chk
      = ⟨.jumped stk' xh' tok lf, n, pr⟩) :
    ∃ pre frame c p,
      stack = pre ++ frame :: stk' ∧
      (find_match cmp tbl fuel a1 ue.header.exceptionType
        (get_object_from_ue ue) stack).1 = some (some (frame :: stk', c), p) ∧
      frame.payload = .jmpbuf tok ∧
      xh' = { ue.header with adjustedPtr := p, handlerSwitchValue := c } ∧
      lf = { frame with payload := .result ue.addr c } := by
  unfold handle_exception at h
  rcases hf : find_match cmp tbl fuel a1 ue.header.exceptionType
      (get_object_from_ue ue) stack with ⟨r, n0⟩
  rw [hf] at h
  match r with
  | none => simp at h
  | some (none, p) => simp at h
  | some (some ([], c), p) => simp at h
  | some (some (frame :: rest, c), p) =>
    simp only [] at h
    have hcommit : ∃ cnt pr0,
        commit_frame ue c p frame rest cnt pr0
          = ⟨.jumped stk' xh' tok lf, n, pr⟩ := by
      by_cases hc : chk = true ∧ c = 0
      · rw [if_pos hc] at h
        rcases hp : is_exception_caught cmp tbl fuel a2
            ue.header.exceptionType p rest with ⟨b, m⟩
        rw [hp] at h
        match b with
        | none => simp at h
        | some false => simp at h
        | some true =>
          simp only [] at h
          exact ⟨n0 + m, true, h⟩
      · rw [if_neg hc] at h
        exact ⟨n0, false, h⟩
    obtain ⟨cnt, pr0, hcm⟩ := hcommit
    obtain ⟨h1, h2, h3, h4, -, -⟩ := commit_frame_eq_jumped hcm
    obtain ⟨pre, hpre⟩ := find_match_suffix cmp tbl fuel a1
      ue.header.exceptionType stack (get_object_from_ue ue) p
      (frame :: rest) c (by rw [hf])
    refine ⟨pre, frame, c, p, ?_, ?_, h2, h3, h4⟩
    · rw [h1]
      exact hpre
    · simp [h1, hf]

/-- Witness for C1: raising through the single-frame stack `fam 0` commits
at the typed-catch frame with clause id `2`. -/
theorem C1_commit_and_transfer_witness :
    ∃ pre frame c p,
      fam 0 = pre ++ frame :: ([] : List exception_frame) ∧
      (find_match cmp6 tbl6 2 0 ue6.header.exceptionType
        (get_object_from_ue ue6) (fam 0)).1
          = some (some (frame :: [], c), p) ∧
      frame.payload = .jmpbuf 77 ∧
      (⟨50, 555, 2, 1, 2⟩ : cxa_exception)
        = { ue6.header with adjustedPtr := p, handlerSwitchValue := c } ∧
      (⟨.result 900 2, 3⟩ : exception_frame)
        = { frame with payload := .result ue6.addr c } :=
  C1_commit_and_transfer cmp6 tbl6 2 0 0 ue6 (fam 0) true []
    ⟨50, 555, 2, 1, 2⟩ 77 ⟨.result 900 2, 3⟩ 1 false (by decide)

/-- Under the hypothesis that no frame of the stack yields a non-cleanup
match (for any object pointer value and any probe-local address), the
non-committing probe completes and reports false. -/
theorem probe_all_cleanup (cmp : Comparator) (tbl : Tables) (fuel : Nat)
    (a : Ptr) (ty : TypeDesc) :
    ∀ (stack : List exception_frame)
      (_ : ∀ a' obj f, f ∈ stack →
        (does_frame_match cmp tbl fuel a' ty obj f).1 ≠ none)
      (_ : ∀ a' obj f r, f ∈ stack →
        (does_frame_match cmp tbl fuel a' ty obj f).1 = some r →
        r.1 = none ∨ r.1 = some 0)
      (obj : Ptr),
      ∃ m, is_exception_caught cmp tbl fuel a ty obj stack = (some false, m)
  | [], _, _, obj => ⟨0, rfl⟩
  | frame :: rest, Hdef, Hnc, obj => by
    rcases hd : does_frame_match cmp tbl fuel a ty obj frame with ⟨r, n⟩
    have hr := Hdef a obj frame (by simp)
    rw [hd] at hr
    match r with
    | none => exact absurd rfl hr
    | some (rc, obj') =>
      have hnc := Hnc a obj frame (rc, obj') (by simp) (by rw [hd])
      obtain ⟨m, hm⟩ := probe_all_cleanup cmp tbl fuel a ty rest
        (fun a' o f hf => Hdef a' o f (List.mem_cons_of_mem _ hf))
        (fun a' o f r' hf => Hnc a' o f r' (List.mem_cons_of_mem _ hf)) obj'
      rcases hnc with h0 | h0 <;>
      · simp only at h0
        subst h0
        exact ⟨n + m, by simp [is_exception_caught, hd, hm]⟩

/-- Under the same hypothesis, `find_match` either finds nothing or finds a
cleanup (clause id `0`) match heading a suffix of the stack. -/
theorem find_all_cleanup (cmp : Comparator) (tbl : Tables) (fuel : Nat)
    (a : Ptr) (ty : TypeDesc) :
    ∀ (stack : List exception_frame)
      (_ : ∀ a' obj f, f ∈ stack →
        (does_frame_match cmp tbl fuel a' ty obj f).1 ≠ none)
      (_ : ∀ a' obj f r, f ∈ stack →
        (does_frame_match cmp tbl fuel a' ty obj f).1 = some r →
        r.1 = none ∨ r.1 = some 0)
      (obj : Ptr),
      (∃ p n, find_match cmp tbl fuel a ty obj stack = (some (none, p), n)) ∨
      (∃ f rest p n, find_match cmp tbl fuel a ty obj stack
        = (some (some (f :: rest, 0), p), n))
  | [], _, _, obj => Or.inl ⟨obj, 0, rfl⟩
  | frame :: rest, Hdef, Hnc, obj => by
    rcases hd : does_frame_match cmp tbl fuel a ty obj frame with ⟨r, n⟩
    have hr := Hdef a obj frame (by simp)
    rw [hd] at hr
    match r with
    | none => exact absurd rfl hr
    | some (rc, obj') =>
      have hnc := Hnc a obj frame (rc, obj') (by simp) (by rw [hd])
      rcases hnc with h0 | h0
      · simp only at h0
        subst h0
        rcases find_all_cleanup cmp tbl fuel a ty rest
            (fun a' o f hf => Hdef a' o f (List.mem_cons_of_mem _ hf))
            (fun a' o f r' hf => Hnc a' o f r' (List.mem_cons_of_mem _ hf))
            obj' with ⟨p, m, hm⟩ | ⟨f, r2, p, m, hm⟩
        · exact Or.inl ⟨p, n + m, by simp [find_match, hd, hm]⟩
        · exact Or.inr ⟨f, r2, p, n + m, by simp [find_match, hd, hm]⟩
      · simp only at h0
        subst h0
        exact Or.inr ⟨frame, rest, obj', n, by simp [find_match, hd]⟩

/-- C2: unhandled atomicity.  If no frame of the Region Stack yields a
non-cleanup match (resolved clause id different from `0`) for the raised
fault — for any object-pointer value and any probe-local address —
then `__pnacl_eh_sjlj_Unwind_RaiseException` returns the no-handler reason
code `_URC_END_OF_STACK` with the Region Stack and the fault handle
unchanged; in particular no checkpoint is copied and no transfer (and so
no cleanup) happens. -/
theorem C2_unhandled_atomicity (cmp : Comparator) (tbl : Tables) (fuel : Nat)
    (a1 a2 : Ptr) (ue : ue_rec) (stack : List exception_frame)
    (Hdef : ∀ a' obj f, f ∈ stack →
      (does_frame_match cmp tbl fuel a' ue.header.exceptionType obj f).1
        ≠ none)
    (Hnc : ∀ a' obj f r, f ∈ stack →
      (does_frame_match cmp tbl fuel a' ue.header.exceptionType obj f).1
        = some r → r.1 = none ∨ r.1 = some 0) :
    ∃ n pr, Unwind_RaiseException cmp tbl fuel a1 a2 ue stack
      = (.unhandled URC_END_OF_STACK stack ue.header, n, pr) := by
  rcases find_all_cleanup cmp tbl fuel a1 ue.header.exceptionType stack
      Hdef Hnc (get_object_from_ue ue) with
    ⟨p, n, hm⟩ | ⟨f, rest, p, n, hm⟩
  · exact ⟨n, false, by simp [Unwind_RaiseException, handle_exception, hm]⟩
  · have hsub : ∀ g, g ∈ rest → g ∈ stack := by
      obtain ⟨pre, hpre⟩ := find_match_suffix cmp tbl fuel a1
        ue.header.exceptionType stack (get_object_from_ue ue) p
        (f :: rest) 0 (by rw [hm])
      intro g hg
      rw [hpre]
      exact List.mem_append_right _ (List.mem_cons_of_mem _ hg)
    obtain ⟨m, hp⟩ := probe_all_cleanup cmp tbl fuel a2
      ue.header.exceptionType rest
      (fun a' o g hg => Hdef a' o g (hsub g hg))
      (fun a' o g r hg => Hnc a' o g r (hsub g hg)) p
    exact ⟨n + m, true,
      by simp [Unwind_RaiseException, handle_exception, hm, hp]⟩

/-- Witness for C2: a stack holding one cleanup-only frame, with a
comparator that matches nothing. -/
theorem C2_unhandled_atomicity_witness :
    ∃ n pr, Unwind_RaiseException cmp2 tbl2 2 0 0 ue2 [clOnly]
      = (.unhandled URC_END_OF_STACK [clOnly] ue2.header, n, pr) :=
  C2_unhandled_atomicity cmp2 tbl2 2 0 0 ue2 [clOnly]
    (fun a' obj f hf => by
      have hfc : f = clOnly := by simpa using hf
      subst hfc
      have e : does_frame_match cmp2 tbl2 2 a' ue2.header.exceptionType obj
          clOnly = (some (some 0, obj), 0) := rfl
      rw [e]
      simp)
    (fun a' obj f r hf hr => by
      have hfc : f = clOnly := by simpa using hf
      subst hfc
      have e : does_frame_match cmp2 tbl2 2 a' ue2.header.exceptionType obj
          clOnly = (some (some 0, obj), 0) := rfl
      rw [e] at hr
      simp only [Option.some.injEq] at hr
      exact Or.inr (by rw [← hr]))

/-- C3 counterexample: a fault raised into a stack whose top frame is a
matching typed catch commits and transfers while the non-committing probe
walk is never run at all (`probeRan = false`) — so the probe is not "run
against the full Region Stack for every raised fault"; when the committed
clause is non-cleanup, the code skips the probe entirely, and when it does
run the probe, it runs it on the frames outer to the matched frame only. -/
theorem C3_counterexample :
    Unwind_RaiseException cmp6 tbl6 2 0 0 ue6 (fam 0)
      = (.transferred [] ⟨50, 555, 2, 1, 2⟩ 77 ⟨.result 900 2, 3⟩, 1,
          false) := by
  decide

/-- C3 (amended): on raise, before any commit the code establishes that a
non-cleanup handler exists: either the committed clause id is itself
non-cleanup (and the probe is skipped), or the committed clause is cleanup
and the probe was run — over the frames outer to the committed frame, with
the adjusted object pointer — and reported true. -/
theorem C3_probe_before_commit (cmp : Comparator) (tbl : Tables) (fuel : Nat)
    (a1 a2 : Ptr) (ue : ue_rec) (stack s : List exception_frame)
    (x : cxa_exception) (t : Nat) (l : exception_frame) (n : Nat) (pr : Bool)
    (h : Unwind_RaiseException cmp tbl fuel a1 a2 ue stack
      = (.transferred s x t l, n, pr)) :
    (x.handlerSwitchValue ≠ 0 ∧ pr = false) ∨
    (x.handlerSwitchValue = 0 ∧ pr = true ∧
      (is_exception_caught cmp tbl fuel a2 ue.header.exceptionType
        x.adjustedPtr s).1 = some true) := by
  unfold Unwind_RaiseException at h
  rcases hh : handle_exception cmp tbl fuel a1 a2 ue stack true
    with ⟨res, n0, pr0⟩
  rw [hh] at h
  match res with
  | .returned s0 x0 => simp at h
  | .ub => simp at h
  | .jumped s0 x0 t0 l0 =>
    simp only [Prod.mk.injEq, RaiseResult.transferred.injEq] at h
    obtain ⟨⟨hs, hx, -, -⟩, -, hpr⟩ := h
    subst hs; subst hx; subst hpr
    unfold handle_exception at hh
    rcases hf : find_match cmp tbl fuel a1 ue.header.exceptionType
        (get_object_from_ue ue) stack with ⟨r, n1⟩
    rw [hf] at hh
    match r with
    | none => simp at hh
    | some (none, p) => simp at hh
    | some (some ([], c), p) => simp at hh
    | some (some (frame :: rest, c), p) =>
      simp only [] at hh
      by_cases hc : c = 0
      · subst hc
        rw [if_pos ⟨trivial, rfl⟩] at hh
        rcases hp : is_exception_caught cmp tbl fuel a2
            ue.header.exceptionType p rest with ⟨b, m⟩
        rw [hp] at hh
        match b with
        | none => simp at hh
        | some false => simp at hh
        | some true =>
          simp only [] at hh
          obtain ⟨h1, -, h3, -, -, h6⟩ := commit_frame_eq_jumped hh
          refine Or.inr ⟨by rw [h3], h6, ?_⟩
          rw [h3, h1]
          simpa using congrArg Prod.fst hp
      · have hcond : ¬ (True ∧ c = 0) := fun hand => hc hand.2
        rw [if_neg hcond] at hh
        obtain ⟨-, -, h3, -, -, h6⟩ := commit_frame_eq_jumped hh
        exact Or.inl ⟨by rw [h3]; exact hc, h6⟩

/-- Witness for C3 (amended): raising through one cleanup frame over a real
handler commits the cleanup frame with the probe run on the outer frames
and reporting true. -/
theorem C3_probe_before_commit_witness :
    ((⟨50, 555, 0, 1, 2⟩ : cxa_exception).handlerSwitchValue ≠ 0 ∧
      true = false) ∨
    ((⟨50, 555, 0, 1, 2⟩ : cxa_exception).handlerSwitchValue = 0 ∧
      true = true ∧
      (is_exception_caught cmp6 tbl6 2 0 ue6.header.exceptionType
        (⟨50, 555, 0, 1, 2⟩ : cxa_exception).adjustedPtr [catchFrame]).1
          = some true) :=
  C3_probe_before_commit cmp6 tbl6 2 0 0 ue6 (fam 1) [catchFrame]
    ⟨50, 555, 0, 1, 2⟩ 11 ⟨.result 900 0, 1⟩ 2 true (by decide)

/-- In the cleanup-over-handler family, a cleanup frame costs exactly one
comparator invocation (the failing typed catch) and matches its cleanup
clause without adjusting the pointer. -/
theorem dfm6_cleanup (a obj : Ptr) :
    does_frame_match cmp6 tbl6 2 a 50 obj cleanupFrame
      = (some (some 0, obj), 1) := rfl

/-- The handler frame costs exactly one comparator invocation and matches
its typed catch clause `2`. -/
theorem dfm6_catch (a obj : Ptr) :
    does_frame_match cmp6 tbl6 2 a 50 obj catchFrame
      = (some (some 2, obj), 1) := rfl

/-- The non-cleanup probe over `fam k` reports true at a cost of `k + 1`
comparator invocations: one per cleanup frame plus one at the handler. -/
theorem probe6 : ∀ (k : Nat) (a obj : Ptr),
    is_exception_caught cmp6 tbl6 2 a 50 obj (fam k) = (some true, k + 1)
  | 0, _, _ => rfl
  | k + 1, a, obj => by
    have ih := probe6 k a obj
    show is_exception_caught cmp6 tbl6 2 a 50 obj (cleanupFrame :: fam k) = _
    simp only [is_exception_caught, dfm6_cleanup a obj]
    simp [ih]
    omega

/-- Searching `fam 0` finds the handler frame with clause `2` at a cost of
one comparator invocation. -/
theorem find6_catch (a obj : Ptr) :
    find_match cmp6 tbl6 2 a 50 obj (fam 0)
      = (some (some (fam 0, 2), obj), 1) := rfl

/-- Searching a stack headed by a cleanup frame matches that frame's
cleanup clause immediately, at a cost of one comparator invocation. -/
theorem find6_cleanup (k : Nat) (a obj : Ptr) :
    find_match cmp6 tbl6 2 a 50 obj (cleanupFrame :: fam k)
      = (some (some (cleanupFrame :: fam k, 0), obj), 1) := by
  simp [find_match, dfm6_cleanup]

/-- Raising into `fam 0` commits the handler directly: one comparator
invocation, probe skipped. -/
theorem handle6_raise_zero (a1 a2 : Ptr) :
    handle_exception cmp6 tbl6 2 a1 a2 ue6 (fam 0) true
      = ⟨.jumped [] ⟨50, 555, 2, 1, 2⟩ 77 ⟨.result 900 2, 3⟩, 1, false⟩ :=
  rfl

/-- Raising into a stack of `k + 1` cleanup frames over the handler matches
the top cleanup frame (one invocation) and runs the probe over the `k + 1`
remaining frames (`k + 2` invocations in total). -/
theorem handle6_raise_succ (k : Nat) (a1 a2 : Ptr) :
    handle_exception cmp6 tbl6 2 a1 a2 ue6 (cleanupFrame :: fam k) true
      = ⟨.jumped (fam k) ⟨50, 555, 0, 1, 2⟩ 11 ⟨.result 900 0, 1⟩,
          1 + (k + 1), true⟩ := by
  unfold handle_exception
  rw [show ue6.header.exceptionType = 50 from rfl,
    show get_object_from_ue ue6 = 555 from rfl, find6_cleanup k a1 555]
  simp [probe6 k a2 555, commit_frame, cleanupFrame, ue6]

/-- Resuming after the last cleanup commits the handler: one invocation. -/
theorem handle6_resume_zero (a1 a2 : Ptr) :
    handle_exception cmp6 tbl6 2 a1 a2 ue6 (fam 0) false
      = ⟨.jumped [] ⟨50, 555, 2, 1, 2⟩ 77 ⟨.result 900 2, 3⟩, 1, false⟩ :=
  rfl

/-- Resuming with cleanup frames still on the stack commits the next
cleanup frame at a cost of one invocation, probe skipped. -/
theorem handle6_resume_succ (k : Nat) (a1 a2 : Ptr) :
    handle_exception cmp6 tbl6 2 a1 a2 ue6 (cleanupFrame :: fam k) false
      = ⟨.jumped (fam k) ⟨50, 555, 0, 1, 2⟩ 11 ⟨.result 900 0, 1⟩, 1,
          false⟩ := by
  unfold handle_exception
  rw [show ue6.header.exceptionType = 50 from rfl,
    show get_object_from_ue ue6 = 555 from rfl, find6_cleanup k a1 555]
  simp [commit_frame, cleanupFrame, ue6]

/-- The resume phase over `fam k` costs exactly `k + 1` comparator
invocations: one per remaining cleanup frame and one at the handler. -/
theorem unwind6_resume (a1 a2 : Ptr) :
    ∀ (k steps : Nat), k + 1 ≤ steps →
      unwind_steps cmp6 tbl6 2 a1 a2 ue6 steps (fam k) false = k + 1
  | 0, 0, h => absurd h (by omega)
  | k + 1, 0, h => absurd h (by omega)
  | 0, steps + 1, _ => by
    simp only [unwind_steps, handle6_resume_zero a1 a2]
    simp
  | k + 1, steps + 1, h => by
    have ih := unwind6_resume a1 a2 k steps (by omega)
    show unwind_steps cmp6 tbl6 2 a1 a2 ue6 (steps + 1)
      (cleanupFrame :: fam k) false = k + 1 + 1
    simp only [unwind_steps, handle6_resume_succ k a1 a2]
    simp [ih]
    omega

/-- One raise step of the full unwind over a cleanup-headed stack: the
raise costs `1 + (k + 1)` invocations and hands over to the resume phase
on the popped stack. -/
theorem unwind6_raise_step (k steps : Nat) (a1 a2 : Ptr) :
    unwind_steps cmp6 tbl6 2 a1 a2 ue6 (steps + 1)
        (cleanupFrame :: fam k) true
      = (1 + (k + 1))
        + unwind_steps cmp6 tbl6 2 a1 a2 ue6 steps (fam k) false := by
  simp only [unwind_steps, handle6_raise_succ k a1 a2]
  simp

/-- C6: `__pnacl_eh_resume` never re-runs the non-cleanup probe (its
`handle_exception` call has `check_for_catch = false`, and the probe flag
of its outcome is always false), and consequently a full unwind through
`N` cleanup-only frames atop one real handler costs exactly `2 * N + 1`
comparator invocations — linear in `N`, not quadratic: the probe runs once
at the raise and never again during the `N` resumes. -/
theorem C6_resume_skips_probe :
    (∀ (cmp : Comparator) (tbl : Tables) (fuel : Nat) (a1 a2 : Ptr)
      (ue : ue_rec) (stack : List exception_frame),
      (pnacl_eh_resume cmp tbl fuel a1 a2 ue stack).2.2 = false) ∧
    (∀ (a1 a2 : Ptr) (N : Nat),
      unwind_total cmp6 tbl6 2 a1 a2 ue6 (fam N) = 2 * N + 1) := by
  constructor
  · intro cmp tbl fuel a1 a2 ue stack
    have hpr := handle_exception_no_probe cmp tbl fuel a1 a2 ue stack
    unfold pnacl_eh_resume
    rcases hh : handle_exception cmp tbl fuel a1 a2 ue stack false
      with ⟨res, n, pr⟩
    rw [hh] at hpr
    cases res <;> simpa using hpr
  · intro a1 a2 N
    have hlen : (fam N).length = N + 1 := by simp [fam]
    unfold unwind_total
    rw [hlen]
    cases N with
    | zero =>
      simp only [unwind_steps, handle6_raise_zero a1 a2]
      simp
    | succ k =>
      show unwind_steps cmp6 tbl6 2 a1 a2 ue6 (k + 1 + 1 + 1)
        (cleanupFrame :: fam k) true = 2 * (k + 1) + 1
      rw [unwind6_raise_step k (k + 1 + 1) a1 a2,
        unwind6_resume a1 a2 k (k + 1 + 1) (by omega)]
      omega

end PnaclSjlj
